import Mathlib

/-!
Verification development for the drama-catalog CRUD API (`src/server.js`).

The server is a single-file Express application over a JSON file store.
We shallowly embed its data model and request handlers:

* JavaScript runtime values that can occur in request payloads and in
  stored records are modelled by the inductive `JVal` (JSON values plus
  `undefined` and `NaN`; numbers are modelled as rationals, which covers
  every numeric literal and comparison the program performs).
* A stored record (`Item`) is a JavaScript object with the fixed key set
  that the create route produces; field values are arbitrary `JVal`s,
  because the update route's spread-merge can place any payload value in
  any field.
* Request payloads (`Payload`) have one optional `JVal` per known key
  (`none` = the key is absent from the JSON body).
* Fallible JavaScript evaluation (a thrown `TypeError`, e.g. calling
  `.trim()` on a number) is modelled with `Except Unit`.
* Timestamps: `new Date().toISOString()` yields strings that compare
  lexicographically in chronological order; we model an instant by a
  rational clock value `now`, stored as `JVal.jnum now`.
* `nanoid` id generation is modelled by an oracle `fresh : Nat → String`
  supplied to the handler; freshness/distinctness are hypotheses where a
  property needs them.

Library-level JavaScript operations (`String.prototype.toLowerCase`,
`trim`, `includes`, `split`, `Number(...)`, `Array.prototype.slice`,
`sort`, `Math.ceil`) are embedded as executable Lean functions on
character lists / rationals, faithful on the ASCII strings and finite
numbers this program manipulates (documented on each definition).
-/

namespace DramaApi

/-- A JavaScript runtime value as it can appear in a request body or in a
stored record: `undefined`, `null`, booleans, finite numbers (as `ℚ`),
`NaN`, strings, arrays, and plain objects (association lists). -/
inductive JVal where
  | undefined
  | jnull
  | jbool (b : Bool)
  | jnum (q : ℚ)
  | nan
  | jstr (s : String)
  | jarr (xs : List JVal)
  | jobj (fields : List (String × JVal))

/-- JavaScript truthiness (`Boolean(v)`): `undefined`, `null`, `false`,
`0`, `NaN` and the empty string are falsy; arrays and objects are truthy. -/
def truthy : JVal → Bool
  | .undefined => false
  | .jnull => false
  | .jbool b => b
  | .jnum q => q != 0
  | .nan => false
  | .jstr s => s != ""
  | .jarr _ => true
  | .jobj _ => true

/-- Evaluation of `a || b` on JavaScript values: the left operand if truthy, else the right. -/
def jsOr (a b : JVal) : JVal := if truthy a then a else b

/-- ASCII lower-casing of one character (model of the case mapping
`String.prototype.toLowerCase` performs; the program's data is ASCII). -/
def lowerChar (c : Char) : Char :=
  if 'A' ≤ c && c ≤ 'Z' then Char.ofNat (c.toNat + 32) else c

/-- Model of `s.toLowerCase()`, character-wise (ASCII). -/
def jsLower (s : String) : String := ⟨s.data.map lowerChar⟩

/-- JavaScript whitespace recognised by `String.prototype.trim` (the
forms that occur here: space, tab, newline, carriage return). -/
def isWsChar (c : Char) : Bool := c == ' ' || c == '\t' || c == '\n' || c == '\r'

/-- Model of `s.trim()`: strip whitespace from both ends. -/
def jsTrim (s : String) : String :=
  ⟨((s.data.dropWhile isWsChar).reverse.dropWhile isWsChar).reverse⟩

/-- Is `pat` a prefix of the second list? (Boolean, structurally recursive.) -/
def isPrefixB : List Char → List Char → Bool
  | [], _ => true
  | _ :: _, [] => false
  | a :: xs, b :: ys => a == b && isPrefixB xs ys

/-- Is `pat` a contiguous sublist of the second list? -/
def isInfixB (pat : List Char) : List Char → Bool
  | [] => isPrefixB pat []
  | c :: rest => isPrefixB pat (c :: rest) || isInfixB pat rest

/-- Model of `hay.includes(pat)`: substring containment. -/
def strIncludes (hay pat : String) : Bool := isInfixB pat.data hay.data

/-- Is `c` an ASCII decimal digit? -/
def isDigitB (c : Char) : Bool := '0' ≤ c && c ≤ '9'

/-- Numeric value of a digit string (most significant first). -/
def digitsToNat (l : List Char) : Nat :=
  l.foldl (fun acc c => acc * 10 + (c.toNat - 48)) 0

/-- Model of `Number(s)` on a string, as `Option ℚ` with `none` = `NaN`.
Modelled for the forms this API receives (query-parameter numbers):
whitespace-only strings give `0`, optionally signed decimal-digit strings
give their value, anything else gives `NaN`.  (Hex/exponent/fractional
literals are not modelled; no route relies on them.) -/
def parseNumber (s : String) : Option ℚ :=
  let t := (s.data.dropWhile isWsChar).reverse.dropWhile isWsChar |>.reverse
  if t.isEmpty then some 0
  else
    match t with
    | '-' :: rest =>
        if !rest.isEmpty && rest.all isDigitB then some (-(digitsToNat rest : ℚ)) else none
    | '+' :: rest =>
        if !rest.isEmpty && rest.all isDigitB then some ((digitsToNat rest : ℚ)) else none
    | _ => if t.all isDigitB then some ((digitsToNat t : ℚ)) else none

/-- Model of `Number(v)` (JavaScript ToNumber), as `Option ℚ` with `none` = `NaN`.
Arrays and objects are modelled as `NaN`; the routes only ever apply
ToNumber to primitives (query strings, body numbers), where this is the
exact JavaScript behaviour. -/
def toNumber : JVal → Option ℚ
  | .undefined => none
  | .jnull => some 0
  | .jbool b => some (if b then 1 else 0)
  | .jnum q => some q
  | .nan => none
  | .jstr s => parseNumber s
  | .jarr _ => none
  | .jobj _ => none

/-- JavaScript `===` between a value and a string (route parameters are
always strings): true iff the value is that same string. -/
def eqStr (v : JVal) (s : String) : Bool :=
  match v with
  | .jstr t => t == s
  | _ => false

/-- A catalog record: the fixed key set produced by the create route.
Field values are arbitrary `JVal`s because an update's spread-merge can
write any payload value into any field. -/
structure Item where
  id : JVal
  title : JVal
  original_title : JVal
  year : JVal
  country : JVal
  genres : JVal
  status : JVal
  rating : JVal
  poster_url : JVal
  banner_url : JVal
  description : JVal
  cast : JVal
  tags : JVal
  episodes : JVal
  created_at : JVal
  updated_at : JVal

/-- A JSON request body, projected onto the key set the server ever
reads or merges; `none` means the key is absent from the body. -/
structure Payload where
  id : Option JVal := none
  title : Option JVal := none
  original_title : Option JVal := none
  year : Option JVal := none
  country : Option JVal := none
  genres : Option JVal := none
  status : Option JVal := none
  rating : Option JVal := none
  poster_url : Option JVal := none
  banner_url : Option JVal := none
  description : Option JVal := none
  cast : Option JVal := none
  tags : Option JVal := none
  episodes : Option JVal := none
  created_at : Option JVal := none
  updated_at : Option JVal := none

/-- Query parameters of the list route (and `count` of the seed route is
carried separately); absent parameter = `none`, present = its string. -/
structure Params where
  search : Option String := none
  genre : Option String := none
  status : Option String := none
  min_year : Option String := none
  max_year : Option String := none
  sort : Option String := none
  page : Option String := none
  limit : Option String := none

/-- The ids of a catalog, in storage order. -/
def idsOf (st : List Item) : List JVal := st.map Item.id

/-! Part: Record Factory (create route, `src/server.js` lines 111-137) -/

/-- Evaluation of `payload.x || dflt` where `x` may be absent (`undefined`). -/
def jsOrD (v : Option JVal) (dflt : JVal) : JVal := jsOr (v.getD .undefined) dflt

/-- Evaluation of `payload.title?.trim() || 'Untitled'`.  Optional chaining turns a
nullish title into `undefined` (falsy, so `'Untitled'`); a string is
trimmed (an all-whitespace title trims to the falsy `''`, so
`'Untitled'`); any other value has no `trim` method and the expression
throws a `TypeError`. -/
def titleOf (v : Option JVal) : Except Unit JVal :=
  match v with
  | none | some .undefined | some .jnull => .ok (.jstr "Untitled")
  | some (.jstr s) =>
      .ok (.jstr (if jsTrim s == "" then "Untitled" else jsTrim s))
  | some _ => .error ()

/-- Evaluation of `Number(payload.year) || undefined`: a number when ToNumber yields a
nonzero number, `undefined` otherwise (`NaN` and `0` are falsy). -/
def numOrUndef (v : Option JVal) : JVal :=
  match toNumber (v.getD .undefined) with
  | some q => if q = 0 then .undefined else .jnum q
  | none => .undefined

/-- Evaluation of `Number(payload.rating) || 0`: the number, with `NaN` (and `0`)
collapsing to `0`. -/
def numOr0 (v : Option JVal) : JVal := .jnum ((toNumber (v.getD .undefined)).getD 0)

/-- Evaluation of `Array.isArray(x) ? x : []`. -/
def arrOrEmpty (v : Option JVal) : JVal :=
  match v with
  | some (.jarr xs) => .jarr xs
  | _ => .jarr []

/-- The item built by `POST /api/dramas` from a body, a fresh id and the
current instant (lines 112-132); `.error` models the `TypeError` thrown
while normalizing a non-string `title`. -/
def createItem (p : Payload) (id : String) (now : ℚ) : Except Unit Item := do
  let t ← titleOf p.title
  pure
    { id := .jstr id
      title := t
      original_title := jsOrD p.original_title (.jstr "")
      year := numOrUndef p.year
      country := jsOrD p.country (.jstr "China")
      genres := arrOrEmpty p.genres
      status := jsOrD p.status (.jstr "Ongoing")
      rating := numOr0 p.rating
      poster_url := jsOrD p.poster_url (.jstr "")
      banner_url := jsOrD p.banner_url (.jstr "")
      description := jsOrD p.description (.jstr "")
      cast := arrOrEmpty p.cast
      tags := arrOrEmpty p.tags
      episodes := arrOrEmpty p.episodes
      created_at := .jnum now
      updated_at := .jnum now }

/-! Part: Update (PUT route, lines 140-148) -/

/-- One field of the spread-merge: the payload's value if the key is
present, the existing value otherwise. -/
def mergeF (old : JVal) (new? : Option JVal) : JVal := new?.getD old

/-- Line 145, the object spread
`... existing, ... req.body, updated_at: now`: every key present
in the body overwrites the existing field, and `updated_at` is then set
to the current instant (so a body-supplied `updated_at` is discarded). -/
def updateItem (e : Item) (p : Payload) (now : ℚ) : Item :=
  { id := mergeF e.id p.id
    title := mergeF e.title p.title
    original_title := mergeF e.original_title p.original_title
    year := mergeF e.year p.year
    country := mergeF e.country p.country
    genres := mergeF e.genres p.genres
    status := mergeF e.status p.status
    rating := mergeF e.rating p.rating
    poster_url := mergeF e.poster_url p.poster_url
    banner_url := mergeF e.banner_url p.banner_url
    description := mergeF e.description p.description
    cast := mergeF e.cast p.cast
    tags := mergeF e.tags p.tags
    episodes := mergeF e.episodes p.episodes
    created_at := mergeF e.created_at p.created_at
    updated_at := .jnum now }

/-- `findIndex` on the id, then in-place replacement by the merged item
(lines 142-145): `none` when no record has the id (the 404 path),
otherwise the merged record and the new catalog. -/
def updateInList (i : String) (p : Payload) (now : ℚ) :
    List Item → Option (Item × List Item)
  | [] => none
  | d :: rest =>
      if eqStr d.id i then some (updateItem d p now, updateItem d p now :: rest)
      else
        match updateInList i p now rest with
        | some (u, rest2) => some (u, d :: rest2)
        | none => none

/-! Part: Query Engine (list route, lines 51-99) -/

/-- Model of `Array.prototype.filter` with a callback that may throw:
elements are visited left to right and the first throw aborts the whole
evaluation. -/
def filterE (p : Item → Except Unit Bool) : List Item → Except Unit (List Item)
  | [] => .ok []
  | d :: rest => do
      let b ← p d
      let r ← filterE p rest
      pure (if b then d :: r else r)

/-- Model of `Array.prototype.some` with a callback that may throw:
left to right, short-circuiting at the first `true`. -/
def anyE (p : JVal → Except Unit Bool) : List JVal → Except Unit Bool
  | [] => .ok false
  | x :: rest => do
      let b ← p x
      if b then pure true else anyE p rest

/-- Evaluation of `d.title?.toLowerCase().includes(q)` for one field value: nullish
gives `undefined` (falsy), a string is lower-cased and searched, any
other value has no `toLowerCase` method and throws. -/
def lowerIncl (v : JVal) (q : String) : Except Unit Bool :=
  match v with
  | .undefined | .jnull => .ok false
  | .jstr s => .ok (strIncludes (jsLower s) q)
  | _ => .error ()

/-- The search predicate of lines 69-72 (`title` match short-circuits
the `description` access). -/
def searchKeep (q : String) (d : Item) : Except Unit Bool := do
  let t ← lowerIncl d.title q
  if t then pure true else lowerIncl d.description q

/-- Lines 67-73: when `search` is truthy, filter on the lower-cased
query; otherwise leave the list as is. -/
def searchStage (search : String) (l : List Item) : Except Unit (List Item) :=
  if search != "" then filterE (searchKeep (jsLower search)) l else pure l

/-- Evaluation of `x.toLowerCase() === g` for a genres element (throws on non-strings). -/
def genreElemMatch (g : String) (x : JVal) : Except Unit Bool :=
  match x with
  | .jstr s => .ok (jsLower s == g)
  | _ => .error ()

/-- Evaluation of `(d.genres || []).some(x => x.toLowerCase() === g)` (line 77): a
falsy `genres` is replaced by `[]`; a truthy non-array has no `some`
method and throws; `some` short-circuits at the first match. -/
def genreKeep (g : String) (d : Item) : Except Unit Bool :=
  match jsOr d.genres (.jarr []) with
  | .jarr xs => anyE (genreElemMatch g) xs
  | _ => .error ()

/-- Lines 75-78: the genre filter, applied only for a truthy `genre`
parameter, against the lower-cased parameter. -/
def genreStage (genre : Option String) (l : List Item) : Except Unit (List Item) :=
  match genre with
  | some g => if g != "" then filterE (genreKeep (jsLower g)) l else pure l
  | none => pure l

/-- Evaluation of `(d.status || '').toLowerCase() === s` (line 82; throws on a truthy
non-string status). -/
def statusKeep (s : String) (d : Item) : Except Unit Bool :=
  match jsOr d.status (.jstr "") with
  | .jstr t => .ok (jsLower t == s)
  | _ => .error ()

/-- Lines 80-83: the status filter, for a truthy `status` parameter. -/
def statusStage (status : Option String) (l : List Item) : Except Unit (List Item) :=
  match status with
  | some s => if s != "" then filterE (statusKeep (jsLower s)) l else pure l
  | none => pure l

/-- JavaScript `>=` where the right operand is a number or `NaN` (so
both operands go through ToNumber); any `NaN` makes it false. -/
def jsGeNum (a b : JVal) : Bool :=
  match toNumber a, toNumber b with
  | some x, some y => decide (x ≥ y)
  | _, _ => false

/-- JavaScript `<=` under the same conditions. -/
def jsLeNum (a b : JVal) : Bool :=
  match toNumber a, toNumber b with
  | some x, some y => decide (x ≤ y)
  | _, _ => false

/-- Line 85: `if (min_year) list = list.filter(d => (d.year||0) >= Number(min_year))`. -/
def minYearStage (min_year : Option String) (l : List Item) : List Item :=
  match min_year with
  | some s =>
      if s != "" then l.filter (fun d => jsGeNum (jsOr d.year (.jnum 0)) (.jstr s)) else l
  | none => l

/-- Line 86: `if (max_year) list = list.filter(d => (d.year||9999) <= Number(max_year))`. -/
def maxYearStage (max_year : Option String) (l : List Item) : List Item :=
  match max_year with
  | some s =>
      if s != "" then l.filter (fun d => jsLeNum (jsOr d.year (.jnum 9999)) (.jstr s)) else l
  | none => l

/-- Reflective field access `a[field]` for the fixed key set of a record
(an unknown key reads as `undefined`). -/
def getField (d : Item) (f : String) : JVal :=
  if f == "id" then d.id
  else if f == "title" then d.title
  else if f == "original_title" then d.original_title
  else if f == "year" then d.year
  else if f == "country" then d.country
  else if f == "genres" then d.genres
  else if f == "status" then d.status
  else if f == "rating" then d.rating
  else if f == "poster_url" then d.poster_url
  else if f == "banner_url" then d.banner_url
  else if f == "description" then d.description
  else if f == "cast" then d.cast
  else if f == "tags" then d.tags
  else if f == "episodes" then d.episodes
  else if f == "created_at" then d.created_at
  else if f == "updated_at" then d.updated_at
  else .undefined

/-- Evaluation of `v ?? 0`: nullish coalescing to the number `0`. -/
def coalesce0 (v : JVal) : JVal :=
  match v with
  | .undefined | .jnull => .jnum 0
  | x => x

/-- JavaScript `<` on our value universe: two strings compare
lexicographically (code-unit order), otherwise both sides go through
ToNumber and any `NaN` makes it false. -/
def jsLtV (a b : JVal) : Bool :=
  match a, b with
  | .jstr s, .jstr t => decide (s < t)
  | _, _ =>
      match toNumber a, toNumber b with
      | some x, some y => decide (x < y)
      | _, _ => false

/-- JavaScript `>` likewise. -/
def jsGtV (a b : JVal) : Bool :=
  match a, b with
  | .jstr s, .jstr t => decide (t < s)
  | _, _ =>
      match toNumber a, toNumber b with
      | some x, some y => decide (y < x)
      | _, _ => false

/-- The comparator of lines 90-96 over `av = a[field] ?? 0` and
`bv = b[field] ?? 0` (`dir` is the second `:`-segment of the `sort`
parameter, possibly absent). -/
def sortCmp (field : String) (dir : Option String) (a b : Item) : Int :=
  let av := coalesce0 (getField a field)
  let bv := coalesce0 (getField b field)
  if jsLtV av bv then (if dir == some "desc" then 1 else -1)
  else if jsGtV av bv then (if dir == some "desc" then -1 else 1)
  else 0

/-- Stable insertion into an already-sorted list (kept before later
equal elements). -/
def insertSorted (le : Item → Item → Bool) (a : Item) : List Item → List Item
  | [] => [a]
  | b :: rest => if le a b then a :: b :: rest else b :: insertSorted le a rest

/-- Stable comparison sort.  `Array.prototype.sort` is required to be
stable (ES2019); on a consistent comparator such as line 90's it yields
the unique stable order, which insertion sort also produces. -/
def stableSort (le : Item → Item → Bool) : List Item → List Item
  | [] => []
  | a :: rest => insertSorted le a (stableSort le rest)

/-- Model of `String.prototype.split` on a single-character separator. -/
def splitOnChar (sep : Char) : List Char → List (List Char)
  | [] => [[]]
  | c :: rest =>
      let r := splitOnChar sep rest
      if c == sep then [] :: r
      else
        match r with
        | [] => [[c]]
        | g :: gs => (c :: g) :: gs

/-- Lines 89-96: split the `sort` parameter into `field:dir` and sort by
the comparator. -/
def sortStage (sortp : String) (l : List Item) : List Item :=
  let parts := (splitOnChar ':' sortp.data).map (fun cs => String.mk cs)
  let field := (parts.head?).getD ""
  let dir := parts[1]?
  stableSort (fun a b => decide (sortCmp field dir a b ≤ 0)) l

/-! Part: Pagination (lines 33-43) -/

/-- A JavaScript number that may be `NaN` (`none`). -/
abbrev JNum := Option ℚ

/-- Subtraction with `NaN` propagation. -/
def jnSub (a b : JNum) : JNum :=
  match a, b with
  | some x, some y => some (x - y)
  | _, _ => none

/-- Addition with `NaN` propagation. -/
def jnAdd (a b : JNum) : JNum :=
  match a, b with
  | some x, some y => some (x + y)
  | _, _ => none

/-- Multiplication with `NaN` propagation (`NaN * 0` is `NaN` in
JavaScript, so propagation is exact here). -/
def jnMul (a b : JNum) : JNum :=
  match a, b with
  | some x, some y => some (x * y)
  | _, _ => none

/-- Truncation toward zero of a rational (T-division of numerator by
denominator). -/
def ratTrunc (q : ℚ) : Int := q.num.tdiv (q.den : Int)

/-- ToIntegerOrInfinity as used by `Array.prototype.slice`: `NaN` maps
to `0`, finite numbers truncate toward zero. -/
def toIntOrZero (n : JNum) : Int :=
  match n with
  | none => 0
  | some q => ratTrunc q

/-- Model of `array.slice(start, end)`: negative indices count from the end, both
are clamped to `[0, length]`, and the result is the items of the
half-open index interval. -/
def jsSlice (l : List Item) (start endp : Int) : List Item :=
  let len : Int := l.length
  let s := if start < 0 then max (len + start) 0 else min start len
  let e := if endp < 0 then max (len + endp) 0 else min endp len
  (l.take e.toNat).drop s.toNat

/-- Ceiling of `a / b` for `b > 0`, in integers. -/
def iceilDiv (a b : Int) : Int := -((-a) / b)

/-- Model of `Math.ceil(total / limit)` with `total : Nat` and a possibly-`NaN`
`limit`.  `none` in the result stands for a non-finite value (`NaN` from
a `NaN` limit, `Infinity`/`NaN` from a zero limit). -/
def jsPages (total : Nat) (limit : JNum) : Option Int :=
  match limit with
  | none => none
  | some q =>
      if q = 0 then none
      else if 0 < q.num then some (iceilDiv (total * q.den) q.num)
      else some (iceilDiv (-(total * q.den : Int)) (-q.num))

/-- The paged result (lines 36-42): the page of items plus `page`,
`limit`, `total` (pre-pagination length) and `pages`. -/
structure Paged where
  items : List Item
  page : JNum
  limit : JNum
  total : Nat
  pages : Option Int

/-- Function `paginate(array, page, limit)` (lines 33-43):
`start = (page-1)*limit`, `end = start+limit`, slice, and the metadata. -/
def paginate (array : List Item) (page limit : JNum) : Paged :=
  let start := jnMul (jnSub page (some 1)) limit
  let endv := jnAdd start limit
  { items := jsSlice array (toIntOrZero start) (toIntOrZero endv)
    page := page
    limit := limit
    total := array.length
    pages := jsPages array.length limit }

/-- The whole list route (lines 51-99): destructure the parameters with
their defaults, run the filter stages in order, sort, and paginate.
`.error` models a `TypeError` escaping the handler. -/
def listQuery (p : Params) (l : List Item) : Except Unit Paged := do
  let l1 ← searchStage (p.search.getD "") l
  let l2 ← genreStage p.genre l1
  let l3 ← statusStage p.status l2
  let l4 := minYearStage p.min_year l3
  let l5 := maxYearStage p.max_year l4
  let l6 := sortStage (p.sort.getD "updated_at:desc") l5
  pure (paginate l6 (parseNumber (p.page.getD "1")) (parseNumber (p.limit.getD "24")))

/-! Part: Seed (lines 160-187) -/

/-- Evaluation of `Array.from(.. length: Number(count) ..)`: ToLength of the count —
`NaN` and negative values clamp to `0`, finite values truncate. -/
def seedLen (count : Option String) : Nat :=
  let n : JNum :=
    match count with
    | none => some 6
    | some s => parseNumber s
  match n with
  | none => 0
  | some q => if q ≤ 0 then 0 else (ratTrunc q).toNat

/-- The `i`-th sample record of lines 163-183 (0-indexed), with its
fresh id and the clock instant. -/
def seedSample (id : String) (now : ℚ) (i : Nat) : Item :=
  { id := .jstr id
    title := .jstr ("Sample C-Drama " ++ toString (i + 1))
    original_title := .jstr ""
    year := .jnum 2024
    country := .jstr "China"
    genres := .jarr [.jstr "Romance", .jstr "Historical"]
    status := .jstr (if i % 2 == 0 then "Ongoing" else "Completed")
    rating := .jnum 8.2
    poster_url := .jstr "https://images.unsplash.com/photo-1520975682031-6ca0b2d0f33b?q=80&w=800&auto=format&fit=crop"
    banner_url := .jstr "https://images.unsplash.com/photo-1517816630740-0b93f606a0d4?q=80&w=1600&auto=format&fit=crop"
    description := .jstr "Lorem ipsum dolor sit amet, a short synopsis for sample content."
    cast := .jarr [.jstr "Lead A", .jstr "Lead B"]
    tags := .jarr [.jstr "sub indo", .jstr "1080p"]
    episodes := .jarr
      [ .jobj [("number", .jnum 1), ("title", .jstr "Episode 1"),
               ("stream_url", .jstr "https://example.com/stream1"), ("subtitle_url", .jstr "")]
      , .jobj [("number", .jnum 2), ("title", .jstr "Episode 2"),
               ("stream_url", .jstr "https://example.com/stream2"), ("subtitle_url", .jstr "")] ]
    created_at := .jnum now
    updated_at := .jnum now }

/-! Part: HTTP Surface -/

/-- A request to one of the six API routes.  The path id and the query
parameters are strings; the body is a `Payload`. -/
inductive Req where
  | list (params : Params)
  | detail (id : String)
  | create (payload : Payload)
  | update (id : String) (payload : Payload)
  | delete (id : String)
  | seed (count : Option String)

/-- A response, by shape:
`paged` is the 200 listing; `item` a 200 record; `created` the 201
record; `deleted n` the 200 body with `ok:true, deleted:n`; `seeded n`
the 200 body with `ok:true, added:n`; `notFound` the 404 body with
`error:"Not found"`; `unauthorized` the 401 body with
`error:"Unauthorized"`; `serverError` an uncaught `TypeError` escaping
the route handler. -/
inductive Resp where
  | paged (r : Paged)
  | item (d : Item)
  | created (d : Item)
  | deleted (n : Nat)
  | seeded (n : Nat)
  | notFound
  | unauthorized
  | serverError

/-- The `requireKey` middleware (lines 26-30): the request passes iff
its `x-api-key` header equals the configured key (an absent header is
`undefined` and can never equal a string). -/
def requireKeyOk (secret : String) (key : Option String) : Bool :=
  key == some secret

/-- The request dispatcher: the routes of lines 51-187 against a loaded
snapshot `st`, returning the response and the snapshot that is written
back.  `secret` is `API_KEY`, `key` the `x-api-key` header, `fresh` the
id oracle for `nanoid`, `now` the clock instant. -/
def handle (secret : String) (key : Option String) (fresh : Nat → String)
    (now : ℚ) (req : Req) (st : List Item) : Resp × List Item :=
  match req with
  | .list p =>
      ((match listQuery p st with
        | .ok r => .paged r
        | .error _ => .serverError), st)
  | .detail i =>
      ((match st.find? (fun d => eqStr d.id i) with
        | some d => .item d
        | none => .notFound), st)
  | .create p =>
      if !requireKeyOk secret key then (.unauthorized, st)
      else
        match createItem p (fresh 0) now with
        | .ok it => (.created it, it :: st)
        | .error _ => (.serverError, st)
  | .update i p =>
      if !requireKeyOk secret key then (.unauthorized, st)
      else
        match updateInList i p now st with
        | some (u, st2) => (.item u, st2)
        | none => (.notFound, st)
  | .delete i =>
      if !requireKeyOk secret key then (.unauthorized, st)
      else
        let st2 := st.filter (fun d => !eqStr d.id i)
        (.deleted (st.length - st2.length), st2)
  | .seed c =>
      if !requireKeyOk secret key then (.unauthorized, st)
      else
        let samples := (List.range (seedLen c)).map (fun i => seedSample (fresh i) now i)
        (.seeded samples.length, samples ++ st)

/-! Part: shared lemmas and concrete demonstration data -/

/-- A well-formed record with title `"A"`, year `2020`, id `"a"`, both
timestamps at clock value `1`. -/
def demoA : Item :=
  { id := .jstr "a", title := .jstr "A", original_title := .jstr "",
    year := .jnum 2020, country := .jstr "China", genres := .jarr [],
    status := .jstr "Ongoing", rating := .jnum 0, poster_url := .jstr "",
    banner_url := .jstr "", description := .jstr "", cast := .jarr [],
    tags := .jarr [], episodes := .jarr [], created_at := .jnum 1,
    updated_at := .jnum 1 }

/-- A second record, id `"b"`, title `"B"`, no `year` field. -/
def demoB : Item :=
  { demoA with id := .jstr "b", title := .jstr "B", year := .undefined }

/-- Characterization of the strict-equality test against a route id. -/
theorem eqStr_iff {v : JVal} {s : String} : eqStr v s = true ↔ v = .jstr s := by
  cases v <;> simp [eqStr]

/-- In a catalog with no duplicate ids, at most one record matches a
given route id. -/
theorem countP_eqStr_le_one (st : List Item) (i : String)
    (h : (idsOf st).Nodup) : st.countP (fun d => eqStr d.id i) ≤ 1 := by
  induction st with
  | nil => simp
  | cons d rest ih =>
      rw [idsOf, List.map_cons, List.nodup_cons] at h
      obtain ⟨hni, hnd⟩ := h
      by_cases hd : eqStr d.id i
      · have hzero : rest.countP (fun d => eqStr d.id i) = 0 := by
          rw [List.countP_eq_zero]
          intro a ha hai
          exact hni (by
            rw [eqStr_iff] at hd hai
            rw [hd, ← hai]
            exact List.mem_map_of_mem Item.id ha)
        simp [List.countP_cons, hd, hzero]
      · simpa [List.countP_cons, hd] using ih hnd

/-- When the callback succeeds on every element, the effectful filter is
the pure filter. -/
theorem filterE_ok_of (p : Item → Except Unit Bool) (pb : Item → Bool)
    (l : List Item) (h : ∀ d ∈ l, p d = .ok (pb d)) :
    filterE p l = .ok (l.filter pb) := by
  induction l with
  | nil => rfl
  | cons d rest ih =>
      have hd := h d (List.mem_cons_self d rest)
      have hr := ih (fun x hx => h x (List.mem_cons_of_mem d hx))
      rw [filterE]
      rw [hd, hr]
      show Except.ok (if pb d then d :: rest.filter pb else rest.filter pb) = _
      by_cases hb : pb d <;> simp [hb, List.filter_cons]

/-- Truncation toward zero is the identity on natural values. -/
theorem ratTrunc_natCast (n : ℕ) : ratTrunc (n : ℚ) = n := by
  rw [ratTrunc, Rat.num_natCast, Rat.den_natCast]
  exact Int.tdiv_one n

/-- On nonnegative (natural) indices, the slice model is drop-then-take. -/
theorem jsSlice_natCast (l : List Item) (a b : ℕ) :
    jsSlice l (a : ℤ) (b : ℤ) = (l.drop a).take (b - a) := by
  rw [jsSlice]
  have ha : ¬((a : ℤ) < 0) := by omega
  have hb : ¬((b : ℤ) < 0) := by omega
  simp only [ha, hb, if_false]
  have hmin : ∀ (n : ℕ), (min (n : ℤ) (l.length : ℤ)).toNat = min n l.length := by
    intro n
    omega
  rw [hmin a, hmin b]
  have htake : l.take (min b l.length) = l.take b := by
    rcases le_total b l.length with hle | hle
    · rw [min_eq_left hle]
    · rw [min_eq_right hle, List.take_length, List.take_of_length_le hle]
  rcases le_total a l.length with hle | hle
  · rw [min_eq_left hle, htake, List.drop_take]
  · rw [min_eq_right hle, htake]
    have h1 : (l.take b).length ≤ l.length := by
      rw [List.length_take]
      omega
    rw [List.drop_eq_nil_of_le h1]
    rw [List.drop_eq_nil_of_le hle, List.take_nil]

/-- The integer ceiling-division used by the pages computation agrees
with the mathematical ceiling of the rational quotient. -/
theorem iceilDiv_eq_ceil (a : ℤ) (b : ℕ) (hb : 0 < b) :
    iceilDiv a (b : ℤ) = ⌈(a : ℚ) / (b : ℚ)⌉ := by
  have hceil : ⌈(a : ℚ) / (b : ℚ)⌉ = -⌊-((a : ℚ) / (b : ℚ))⌋ := by
    rw [Int.floor_neg]
    ring
  have hneg : -((a : ℚ) / (b : ℚ)) = ((-a : ℤ) : ℚ) / (b : ℚ) := by
    push_cast
    ring
  rw [iceilDiv, hceil, hneg, Rat.floor_intCast_div_natCast]

/-- An update whose payload carries no `id` key leaves the catalog's id
sequence unchanged. -/
theorem updateInList_ids (i : String) (p : Payload) (now : ℚ)
    (hpid : p.id = none) :
    ∀ (st : List Item) (u : Item) (st2 : List Item),
      updateInList i p now st = some (u, st2) → idsOf st2 = idsOf st := by
  intro st
  induction st with
  | nil => intro u st2 h; simp [updateInList] at h
  | cons d rest ih =>
      intro u st2 h
      rw [updateInList] at h
      by_cases hd : eqStr d.id i
      · rw [if_pos hd] at h
        simp only [Option.some.injEq, Prod.mk.injEq] at h
        obtain ⟨h1, h2⟩ := h
        subst h1
        subst h2
        have hid : (updateItem d p now).id = d.id := by
          simp [updateItem, mergeF, hpid]
        simp [idsOf, hid]
      · rw [if_neg hd] at h
        cases hrec : updateInList i p now rest with
        | none => rw [hrec] at h; exact absurd h (by simp)
        | some pr =>
            obtain ⟨u2, rest2⟩ := pr
            rw [hrec] at h
            simp only [Option.some.injEq, Prod.mk.injEq] at h
            obtain ⟨h1, h2⟩ := h
            subst h1
            subst h2
            have hih := ih _ _ hrec
            simp only [idsOf, List.map_cons] at hih ⊢
            rw [hih]

/-! Part: the claims -/

/-- Spec-side description of the overwrite half of the shallow merge
(§4.3): every key present in the payload, `id` included, takes the
payload's value in the result (the server-stamped `updated_at` aside). -/
def OverwritesPresent (p : Payload) (r : Item) : Prop :=
  (∀ v, p.id = some v → r.id = v) ∧
  (∀ v, p.title = some v → r.title = v) ∧
  (∀ v, p.original_title = some v → r.original_title = v) ∧
  (∀ v, p.year = some v → r.year = v) ∧
  (∀ v, p.country = some v → r.country = v) ∧
  (∀ v, p.genres = some v → r.genres = v) ∧
  (∀ v, p.status = some v → r.status = v) ∧
  (∀ v, p.rating = some v → r.rating = v) ∧
  (∀ v, p.poster_url = some v → r.poster_url = v) ∧
  (∀ v, p.banner_url = some v → r.banner_url = v) ∧
  (∀ v, p.description = some v → r.description = v) ∧
  (∀ v, p.cast = some v → r.cast = v) ∧
  (∀ v, p.tags = some v → r.tags = v) ∧
  (∀ v, p.episodes = some v → r.episodes = v) ∧
  (∀ v, p.created_at = some v → r.created_at = v)

/-- Spec-side description of the retain half of the shallow merge: every
key absent from the payload keeps the existing record's value. -/
def RetainsAbsent (p : Payload) (e r : Item) : Prop :=
  (p.id = none → r.id = e.id) ∧
  (p.title = none → r.title = e.title) ∧
  (p.original_title = none → r.original_title = e.original_title) ∧
  (p.year = none → r.year = e.year) ∧
  (p.country = none → r.country = e.country) ∧
  (p.genres = none → r.genres = e.genres) ∧
  (p.status = none → r.status = e.status) ∧
  (p.rating = none → r.rating = e.rating) ∧
  (p.poster_url = none → r.poster_url = e.poster_url) ∧
  (p.banner_url = none → r.banner_url = e.banner_url) ∧
  (p.description = none → r.description = e.description) ∧
  (p.cast = none → r.cast = e.cast) ∧
  (p.tags = none → r.tags = e.tags) ∧
  (p.episodes = none → r.episodes = e.episodes) ∧
  (p.created_at = none → r.created_at = e.created_at)

/-- C1: the update operation is a shallow merge — every key present in
the payload (including `id`) overwrites the corresponding key of the
existing record, keys absent from the payload retain their prior values,
and `updated_at` is refreshed to the current instant, which is strictly
later than the pre-update value whenever the clock has advanced,
regardless of whether any semantic field changed. -/
theorem C1_update_shallow_merge (e : Item) (p : Payload) (now told : ℚ)
    (hu : e.updated_at = .jnum told) (hlt : told < now) :
    OverwritesPresent p (updateItem e p now) ∧
    RetainsAbsent p e (updateItem e p now) ∧
    (updateItem e p now).updated_at = .jnum now ∧
    ∃ tnew, (updateItem e p now).updated_at = .jnum tnew ∧ told < tnew := by
  refine ⟨?_, ?_, rfl, now, rfl, hlt⟩
  · refine ⟨?_, ?_, ?_, ?_, ?_, ?_, ?_, ?_, ?_, ?_, ?_, ?_, ?_, ?_, ?_⟩ <;>
      exact fun v h => by simp [updateItem, mergeF, h]
  · refine ⟨?_, ?_, ?_, ?_, ?_, ?_, ?_, ?_, ?_, ?_, ?_, ?_, ?_, ?_, ?_⟩ <;>
      exact fun h => by simp [updateItem, mergeF, h]

/-- Witness for C1 at the spec's own example: record with title `"A"`
and year `2020`, payload setting year to `2021`, clock moved from `1`
to `2`. -/
theorem C1_update_shallow_merge_witness :
    OverwritesPresent { year := some (.jnum 2021) }
      (updateItem demoA { year := some (.jnum 2021) } 2) ∧
    RetainsAbsent { year := some (.jnum 2021) } demoA
      (updateItem demoA { year := some (.jnum 2021) } 2) ∧
    (updateItem demoA { year := some (.jnum 2021) } 2).updated_at = .jnum 2 ∧
    ∃ tnew, (updateItem demoA { year := some (.jnum 2021) } 2).updated_at = .jnum tnew ∧
      (1 : ℚ) < tnew :=
  C1_update_shallow_merge demoA { year := some (.jnum 2021) } 2 1 rfl (by norm_num)

/-- C10: the merged record's `updated_at` is the server-generated
instant even when the payload carries an `updated_at` key, while `id`
and `created_at` are taken from the payload when it carries them. -/
theorem C10_updated_at_server_wins (e : Item) (p : Payload) (now : ℚ)
    (v vid vca : JVal) (hu : p.updated_at = some v) (hid : p.id = some vid)
    (hca : p.created_at = some vca) :
    (updateItem e p now).updated_at = .jnum now ∧
    (updateItem e p now).id = vid ∧
    (updateItem e p now).created_at = vca :=
  ⟨rfl, by simp [updateItem, mergeF, hid], by simp [updateItem, mergeF, hca]⟩

/-- Witness for C10: a payload that tries to set all three protected-
looking keys; only `id` and `created_at` take effect. -/
theorem C10_updated_at_server_wins_witness :
    (updateItem demoA
      { id := some (.jstr "evil"), created_at := some (.jnum 99),
        updated_at := some (.jnum 99) } 2).updated_at = .jnum 2 ∧
    (updateItem demoA
      { id := some (.jstr "evil"), created_at := some (.jnum 99),
        updated_at := some (.jnum 99) } 2).id = .jstr "evil" ∧
    (updateItem demoA
      { id := some (.jstr "evil"), created_at := some (.jnum 99),
        updated_at := some (.jnum 99) } 2).created_at = .jnum 99 :=
  C10_updated_at_server_wins demoA
    { id := some (.jstr "evil"), created_at := some (.jnum 99),
      updated_at := some (.jnum 99) } 2
    (.jnum 99) (.jstr "evil") (.jnum 99) rfl rfl rfl

/-- C5: every mutating request whose credential header is absent or
differs from the configured secret is answered 401 Unauthorized with the
catalog left unchanged, and the read routes (list, detail) never consult
the credential. -/
theorem C5_auth_gate (secret : String) (key : Option String)
    (fresh : Nat → String) (now : ℚ) (st : List Item)
    (hk : key ≠ some secret) :
    (∀ p, handle secret key fresh now (.create p) st = (.unauthorized, st)) ∧
    (∀ i p, handle secret key fresh now (.update i p) st = (.unauthorized, st)) ∧
    (∀ i, handle secret key fresh now (.delete i) st = (.unauthorized, st)) ∧
    (∀ c, handle secret key fresh now (.seed c) st = (.unauthorized, st)) ∧
    (∀ ps k2, handle secret key fresh now (.list ps) st
      = handle secret k2 fresh now (.list ps) st) ∧
    (∀ i k2, handle secret key fresh now (.detail i) st
      = handle secret k2 fresh now (.detail i) st) := by
  have hko : requireKeyOk secret key = false := by
    simpa [requireKeyOk] using hk
  exact ⟨fun p => by simp [handle, hko],
         fun i p => by simp [handle, hko],
         fun i => by simp [handle, hko],
         fun c => by simp [handle, hko],
         fun ps k2 => rfl,
         fun i k2 => rfl⟩

/-- Witness for C5: the default secret with the header absent, on a
one-record catalog. -/
theorem C5_auth_gate_witness :
    (∀ p, handle "supersecretkey" none (fun _ => "f1") 2 (.create p) [demoA]
      = (.unauthorized, [demoA])) ∧
    (∀ i p, handle "supersecretkey" none (fun _ => "f1") 2 (.update i p) [demoA]
      = (.unauthorized, [demoA])) ∧
    (∀ i, handle "supersecretkey" none (fun _ => "f1") 2 (.delete i) [demoA]
      = (.unauthorized, [demoA])) ∧
    (∀ c, handle "supersecretkey" none (fun _ => "f1") 2 (.seed c) [demoA]
      = (.unauthorized, [demoA])) ∧
    (∀ ps k2, handle "supersecretkey" none (fun _ => "f1") 2 (.list ps) [demoA]
      = handle "supersecretkey" k2 (fun _ => "f1") 2 (.list ps) [demoA]) ∧
    (∀ i k2, handle "supersecretkey" none (fun _ => "f1") 2 (.detail i) [demoA]
      = handle "supersecretkey" k2 (fun _ => "f1") 2 (.detail i) [demoA]) :=
  C5_auth_gate "supersecretkey" none (fun _ => "f1") 2 [demoA] (by simp)

/-- C8: on a catalog with unique ids, delete removes exactly the records
whose id equals the path id, answers `deleted` with that count (0 or 1),
does not error when the id is absent, and a subsequent detail request
for the same id is answered 404 Not found. -/
theorem C8_delete_exact (secret : String) (key : Option String)
    (fresh : Nat → String) (now : ℚ) (st : List Item) (i : String)
    (hk : key = some secret) (hnd : (idsOf st).Nodup) :
    (handle secret key fresh now (.delete i) st).2
      = st.filter (fun d => !eqStr d.id i) ∧
    (handle secret key fresh now (.delete i) st).1
      = .deleted (st.countP (fun d => eqStr d.id i)) ∧
    st.countP (fun d => eqStr d.id i) ≤ 1 ∧
    (∀ d ∈ (handle secret key fresh now (.delete i) st).2, d.id ≠ .jstr i) ∧
    (∀ d ∈ st, d.id ≠ .jstr i → d ∈ (handle secret key fresh now (.delete i) st).2) ∧
    handle secret key fresh now (.detail i)
        ((handle secret key fresh now (.delete i) st).2)
      = (.notFound, (handle secret key fresh now (.delete i) st).2) := by
  subst hk
  have hko : requireKeyOk secret (some secret) = true := by simp [requireKeyOk]
  have hst2 : (handle secret (some secret) fresh now (.delete i) st).2
      = st.filter (fun d => !eqStr d.id i) := by
    simp [handle, hko]
  have hcount : st.length - (st.filter (fun d => !eqStr d.id i)).length
      = st.countP (fun d => eqStr d.id i) := by
    have h1 := List.length_eq_countP_add_countP (fun d => eqStr d.id i) st
    have hfe : (fun (a : Item) => decide ¬(eqStr a.id i = true))
        = (fun (d : Item) => !eqStr d.id i) := by
      funext d
      by_cases hd : eqStr d.id i <;> simp [hd]
    rw [hfe] at h1
    have h2 : (st.filter (fun d => !eqStr d.id i)).length
        = st.countP (fun d => !eqStr d.id i) := by
      rw [List.countP_eq_length_filter]
    omega
  refine ⟨hst2, ?_, countP_eqStr_le_one st i hnd, ?_, ?_, ?_⟩
  · simp only [handle, hko, Bool.not_true, Bool.false_eq_true, if_false]
    rw [hcount]
  · intro d hd
    rw [hst2, List.mem_filter] at hd
    have := hd.2
    simp only [Bool.not_eq_true'] at this
    intro hcon
    rw [show (eqStr d.id i = false) ↔ ¬(eqStr d.id i = true) by simp] at this
    exact this (eqStr_iff.mpr hcon)
  · intro d hd hne
    rw [hst2, List.mem_filter]
    refine ⟨hd, ?_⟩
    simp only [Bool.not_eq_true']
    rw [show (eqStr d.id i = false) ↔ ¬(eqStr d.id i = true) by simp]
    exact fun hc => hne (eqStr_iff.mp hc)
  · rw [hst2]
    have hfind : (st.filter (fun d => !eqStr d.id i)).find? (fun d => eqStr d.id i)
        = none := by
      rw [List.find?_eq_none]
      intro x hx
      rw [List.mem_filter] at hx
      simp only [Bool.not_eq_true'] at hx
      rw [hx.2]
      simp
    simp [handle, hfind]

/-- Witness for C8: delete id `"a"` from the two-record demo catalog. -/
theorem C8_delete_exact_witness :
    (handle "k" (some "k") (fun _ => "f1") 2 (.delete "a") [demoA, demoB]).2
      = [demoA, demoB].filter (fun d => !eqStr d.id "a") ∧
    (handle "k" (some "k") (fun _ => "f1") 2 (.delete "a") [demoA, demoB]).1
      = .deleted ([demoA, demoB].countP (fun d => eqStr d.id "a")) ∧
    [demoA, demoB].countP (fun d => eqStr d.id "a") ≤ 1 ∧
    (∀ d ∈ (handle "k" (some "k") (fun _ => "f1") 2 (.delete "a") [demoA, demoB]).2,
      d.id ≠ .jstr "a") ∧
    (∀ d ∈ [demoA, demoB], d.id ≠ .jstr "a" →
      d ∈ (handle "k" (some "k") (fun _ => "f1") 2 (.delete "a") [demoA, demoB]).2) ∧
    handle "k" (some "k") (fun _ => "f1") 2 (.detail "a")
        ((handle "k" (some "k") (fun _ => "f1") 2 (.delete "a") [demoA, demoB]).2)
      = (.notFound,
         (handle "k" (some "k") (fun _ => "f1") 2 (.delete "a") [demoA, demoB]).2) :=
  C8_delete_exact "k" (some "k") (fun _ => "f1") 2 [demoA, demoB] "a" rfl
    (by simp [idsOf, demoA, demoB])

/-- C9: with the right credential, seeding adds exactly `seedLen c`
sample records, prepended in order ahead of the untouched pre-existing
records, answers `added` with that count, the fresh ids are pairwise
distinct when the id oracle is injective on the generated range, a
missing `count` defaults to 6, and a numeric `count` string yields
exactly its value. -/
theorem C9_seed_prepends (secret : String) (key : Option String)
    (fresh : Nat → String) (now : ℚ) (st : List Item) (c : Option String)
    (hk : key = some secret)
    (hinj : ∀ i j, i < seedLen c → j < seedLen c → fresh i = fresh j → i = j) :
    (handle secret key fresh now (.seed c) st).2
      = (List.range (seedLen c)).map (fun i => seedSample (fresh i) now i) ++ st ∧
    (handle secret key fresh now (.seed c) st).1 = .seeded (seedLen c) ∧
    (handle secret key fresh now (.seed c) st).2.length = seedLen c + st.length ∧
    (idsOf ((List.range (seedLen c)).map (fun i => seedSample (fresh i) now i))).Nodup ∧
    seedLen none = 6 ∧
    (∀ (s : String) (N : ℕ), parseNumber s = some (N : ℚ) → seedLen (some s) = N) := by
  subst hk
  have hko : requireKeyOk secret (some secret) = true := by simp [requireKeyOk]
  refine ⟨by simp [handle, hko], by simp [handle, hko], by simp [handle, hko], ?_, rfl, ?_⟩
  · have hmap : idsOf ((List.range (seedLen c)).map (fun i => seedSample (fresh i) now i))
        = (List.range (seedLen c)).map (fun i => JVal.jstr (fresh i)) := by
      simp [idsOf, seedSample, Function.comp]
    rw [hmap]
    refine List.Nodup.map_on ?_ (List.nodup_range _)
    intro x hx y hy hxy
    rw [List.mem_range] at hx hy
    exact hinj x y hx hy (by simpa using hxy)
  · intro s N h
    rw [seedLen, h]
    rcases Nat.eq_zero_or_pos N with h0 | h0
    · subst h0
      norm_num
    · have hpos : ¬((N : ℚ) ≤ 0) := by
        push_neg
        exact_mod_cast h0
      simp only [hpos, if_false, ratTrunc_natCast]
      exact Int.toNat_natCast N

/-- The three-name id oracle used by the seed witness. -/
def freshDemo (i : Nat) : String :=
  if i = 0 then "f0" else if i = 1 then "f1" else "f2"

/-- Witness for C9: seed with `count=3` onto the one-record demo
catalog, with a three-name id oracle. -/
theorem C9_seed_prepends_witness :
    (handle "k" (some "k") freshDemo 2 (.seed (some "3")) [demoA]).2
      = (List.range (seedLen (some "3"))).map
          (fun i => seedSample (freshDemo i) 2 i) ++ [demoA] ∧
    (handle "k" (some "k") freshDemo 2 (.seed (some "3")) [demoA]).1
      = .seeded (seedLen (some "3")) ∧
    (handle "k" (some "k") freshDemo 2 (.seed (some "3")) [demoA]).2.length
      = seedLen (some "3") + [demoA].length ∧
    (idsOf ((List.range (seedLen (some "3"))).map
      (fun i => seedSample (freshDemo i) 2 i))).Nodup ∧
    seedLen none = 6 ∧
    (∀ (s : String) (N : ℕ), parseNumber s = some (N : ℚ) → seedLen (some s) = N) :=
  C9_seed_prepends "k" (some "k") freshDemo 2 [demoA] (some "3") rfl
    (by
      intro i j hi hj h
      have h3 : seedLen (some "3") = 3 := rfl
      rw [h3] at hi hj
      interval_cases i <;> interval_cases j <;> simp_all [freshDemo])

/-- The pure value of the search predicate on a record whose searchable
fields are strings (used to relate the effectful filter to a pure one). -/
def searchKeepB (q : String) (d : Item) : Bool :=
  (match d.title with
   | .jstr t => strIncludes (jsLower t) (jsLower q)
   | _ => false) ||
  (match d.description with
   | .jstr s => strIncludes (jsLower s) (jsLower q)
   | _ => false)

/-- On a record with string title and description, the route's search
callback computes the pure predicate. -/
theorem searchKeep_ok (q : String) (d : Item) (t s : String)
    (ht : d.title = .jstr t) (hs : d.description = .jstr s) :
    searchKeep (jsLower q) d = .ok (searchKeepB q d) := by
  simp only [searchKeep, searchKeepB, lowerIncl, ht, hs]
  by_cases hb : strIncludes (jsLower t) (jsLower q)
  · simp only [hb]
    rfl
  · simp only [Bool.not_eq_true] at hb
    simp only [hb]
    rfl

/-- C7: a record is retained by the search filter iff its title or its
description contains the lower-cased search string case-insensitively,
and an empty search retains every record (stated for catalogs whose
searchable fields are strings, as every record the factory produces). -/
theorem C7_search_filter (q : String) (l : List Item)
    (hwf : ∀ d ∈ l, (∃ t, d.title = .jstr t) ∧ (∃ s, d.description = .jstr s)) :
    ∃ r, searchStage q l = .ok r ∧
      ∀ d, d ∈ r ↔ d ∈ l ∧
        (q = "" ∨ ∃ t s, d.title = .jstr t ∧ d.description = .jstr s ∧
          (strIncludes (jsLower t) (jsLower q) = true ∨
           strIncludes (jsLower s) (jsLower q) = true)) := by
  by_cases hq : q = ""
  · subst hq
    exact ⟨l, rfl, fun d => by simp⟩
  · have hne : (q != "") = true := by simpa using hq
    have hok : ∀ d ∈ l, searchKeep (jsLower q) d = .ok (searchKeepB q d) := by
      intro d hd
      obtain ⟨⟨t, ht⟩, ⟨s, hs⟩⟩ := hwf d hd
      exact searchKeep_ok q d t s ht hs
    refine ⟨l.filter (searchKeepB q), ?_, ?_⟩
    · rw [searchStage, if_pos hne]
      exact filterE_ok_of _ _ l hok
    · intro d
      rw [List.mem_filter]
      constructor
      · rintro ⟨hd, hkeep⟩
        refine ⟨hd, Or.inr ?_⟩
        obtain ⟨⟨t, ht⟩, ⟨s, hs⟩⟩ := hwf d hd
        refine ⟨t, s, ht, hs, ?_⟩
        rw [searchKeepB, ht, hs] at hkeep
        simpa using hkeep
      · rintro ⟨hd, hor⟩
        refine ⟨hd, ?_⟩
        rcases hor with hq0 | ⟨t, s, ht, hs, hinc⟩
        · exact absurd hq0 hq
        · rw [searchKeepB, ht, hs]
          simpa using hinc

/-- Witness for C7: a one-record catalog with title `"Hello"`, searched
for `"ELL"`. -/
theorem C7_search_filter_witness :
    ∃ r, searchStage "ELL" [{ demoA with title := .jstr "Hello" }] = .ok r ∧
      ∀ d, d ∈ r ↔ d ∈ [{ demoA with title := .jstr "Hello" }] ∧
        (("ELL" : String) = "" ∨ ∃ t s, d.title = .jstr t ∧ d.description = .jstr s ∧
          (strIncludes (jsLower t) (jsLower "ELL") = true ∨
           strIncludes (jsLower s) (jsLower "ELL") = true)) :=
  C7_search_filter "ELL" [{ demoA with title := .jstr "Hello" }]
    (by
      intro d hd
      simp only [List.mem_singleton] at hd
      subst hd
      exact ⟨⟨"Hello", rfl⟩, ⟨"", rfl⟩⟩)

/-- With a 1-indexed natural page and natural limit, the slice of the
pagination helper is drop-then-take at the page boundaries. -/
theorem paginate_items_nat (l : List Item) (p L : ℕ) (hp : 1 ≤ p) :
    (paginate l (some (p : ℚ)) (some (L : ℚ))).items
      = (l.drop ((p - 1) * L)).take L := by
  have hstart : jnMul (jnSub (some (p : ℚ)) (some 1)) (some (L : ℚ))
      = some ((((p - 1) * L : ℕ) : ℚ)) := by
    show some (((p : ℚ) - 1) * (L : ℚ)) = _
    rw [show ((((p - 1) * L : ℕ)) : ℚ) = ((p : ℚ) - 1) * (L : ℚ) by
      push_cast [Nat.cast_sub hp]
      ring]
  have hend : jnAdd (some ((((p - 1) * L : ℕ) : ℚ))) (some (L : ℚ))
      = some (((p * L : ℕ) : ℚ)) := by
    show some (((((p - 1) * L : ℕ)) : ℚ) + (L : ℚ)) = _
    rw [show (((p * L : ℕ)) : ℚ) = ((((p - 1) * L : ℕ)) : ℚ) + (L : ℚ) by
      push_cast [Nat.cast_sub hp]
      ring]
  have hsub : p * L - (p - 1) * L = L := by
    have hp1 : p = (p - 1) + 1 := by omega
    calc p * L - (p - 1) * L = ((p - 1) + 1) * L - (p - 1) * L := by rw [← hp1]
    _ = L := by rw [Nat.succ_mul]; omega
  show jsSlice l (toIntOrZero (jnMul (jnSub (some (p : ℚ)) (some 1)) (some (L : ℚ))))
        (toIntOrZero (jnAdd (jnMul (jnSub (some (p : ℚ)) (some 1)) (some (L : ℚ)))
          (some (L : ℚ)))) = _
  rw [hstart, hend]
  show jsSlice l (ratTrunc _) (ratTrunc _) = _
  rw [ratTrunc_natCast, ratTrunc_natCast, jsSlice_natCast, hsub]

/-- The pages metadata is the mathematical ceiling of `total / limit`
for a positive natural limit. -/
theorem paginate_pages_nat (l : List Item) (pq : JNum) (L : ℕ) (hL : 1 ≤ L) :
    (paginate l pq (some (L : ℚ))).pages = some ⌈(l.length : ℚ) / (L : ℚ)⌉ := by
  show jsPages l.length (some (L : ℚ)) = _
  rw [jsPages]
  have h0 : ¬((L : ℚ) = 0) := by
    exact_mod_cast Nat.pos_iff_ne_zero.mp hL
  have hnum : ((L : ℚ)).num = (L : ℤ) := Rat.num_natCast L
  have hden : ((L : ℚ)).den = 1 := Rat.den_natCast L
  have hpos : 0 < ((L : ℚ)).num := by
    rw [hnum]
    exact_mod_cast hL
  simp only [h0, if_false, hpos, if_true]
  rw [hnum, hden]
  have := iceilDiv_eq_ceil (l.length : ℤ) L hL
  simp only [Nat.cast_one, mul_one]
  rw [this]
  norm_num

/-- C6: pagination — page `p` with limit `L` returns the items of index
interval `[(p-1)L, pL)`, `total` counts the filtered list before
pagination, `pages` is the ceiling of `total/limit`, an out-of-range
page yields an empty item list rather than an error, the route defaults
are page 1 and limit 24, and the 30-record example behaves as stated. -/
theorem C6_pagination (l : List Item) (p L : ℕ) (hp : 1 ≤ p) (hL : 1 ≤ L) :
    (paginate l (some (p : ℚ)) (some (L : ℚ))).items
      = (l.drop ((p - 1) * L)).take L ∧
    (paginate l (some (p : ℚ)) (some (L : ℚ))).total = l.length ∧
    (paginate l (some (p : ℚ)) (some (L : ℚ))).pages
      = some ⌈(l.length : ℚ) / (L : ℚ)⌉ ∧
    (l.length ≤ (p - 1) * L →
      (paginate l (some (p : ℚ)) (some (L : ℚ))).items = []) ∧
    (∀ ps : Params, ps.page = none → ps.limit = none →
      listQuery ps l = listQuery { ps with page := some "1", limit := some "24" } l) ∧
    parseNumber "1" = some 1 ∧ parseNumber "24" = some 24 ∧
    (l.length = 30 →
      (paginate l (some (1 : ℚ)) (some (24 : ℚ))).items.length = 24 ∧
      (paginate l (some (1 : ℚ)) (some (24 : ℚ))).pages = some 2 ∧
      (paginate l (some (2 : ℚ)) (some (24 : ℚ))).items.length = 6 ∧
      (paginate l (some (3 : ℚ)) (some (24 : ℚ))).items = []) := by
  refine ⟨paginate_items_nat l p L hp, rfl, paginate_pages_nat l _ L hL, ?_, ?_, rfl, rfl, ?_⟩
  · intro hout
    rw [paginate_items_nat l p L hp, List.drop_eq_nil_of_le hout, List.take_nil]
  · intro ps hpage hlimit
    simp [listQuery, hpage, hlimit]
  · intro h30
    have c1 : ((1 : ℚ)) = ((1 : ℕ) : ℚ) := by norm_num
    have c2 : ((2 : ℚ)) = ((2 : ℕ) : ℚ) := by norm_num
    have c3 : ((3 : ℚ)) = ((3 : ℕ) : ℚ) := by norm_num
    have c24 : ((24 : ℚ)) = ((24 : ℕ) : ℚ) := by norm_num
    refine ⟨?_, ?_, ?_, ?_⟩
    · rw [c1, c24, paginate_items_nat l 1 24 (by norm_num)]
      simp [h30]
    · rw [c1, c24, paginate_pages_nat l _ 24 (by norm_num), h30]
      norm_num [Int.ceil_eq_iff]
    · rw [c2, c24, paginate_items_nat l 2 24 (by norm_num)]
      simp [h30]
    · rw [c3, c24, paginate_items_nat l 3 24 (by norm_num)]
      rw [List.drop_eq_nil_of_le (by omega), List.take_nil]

/-- Witness for C6 on a concrete 30-record catalog at page 2, limit 24. -/
theorem C6_pagination_witness :
    (paginate (List.replicate 30 demoA) (some ((2 : ℕ) : ℚ)) (some ((24 : ℕ) : ℚ))).items
      = ((List.replicate 30 demoA).drop ((2 - 1) * 24)).take 24 ∧
    (paginate (List.replicate 30 demoA) (some ((2 : ℕ) : ℚ)) (some ((24 : ℕ) : ℚ))).total
      = (List.replicate 30 demoA).length ∧
    (paginate (List.replicate 30 demoA) (some ((2 : ℕ) : ℚ)) (some ((24 : ℕ) : ℚ))).pages
      = some ⌈((List.replicate 30 demoA).length : ℚ) / ((24 : ℕ) : ℚ)⌉ ∧
    ((List.replicate 30 demoA).length ≤ (2 - 1) * 24 →
      (paginate (List.replicate 30 demoA) (some ((2 : ℕ) : ℚ)) (some ((24 : ℕ) : ℚ))).items = []) ∧
    (∀ ps : Params, ps.page = none → ps.limit = none →
      listQuery ps (List.replicate 30 demoA)
        = listQuery { ps with page := some "1", limit := some "24" } (List.replicate 30 demoA)) ∧
    parseNumber "1" = some 1 ∧ parseNumber "24" = some 24 ∧
    ((List.replicate 30 demoA).length = 30 →
      (paginate (List.replicate 30 demoA) (some (1 : ℚ)) (some (24 : ℚ))).items.length = 24 ∧
      (paginate (List.replicate 30 demoA) (some (1 : ℚ)) (some (24 : ℚ))).pages = some 2 ∧
      (paginate (List.replicate 30 demoA) (some (2 : ℚ)) (some (24 : ℚ))).items.length = 6 ∧
      (paginate (List.replicate 30 demoA) (some (3 : ℚ)) (some (24 : ℚ))).items = []) :=
  C6_pagination (List.replicate 30 demoA) 2 24 (by norm_num) (by norm_num)

/-- C3 counterexample: a record with no `year` field is EXCLUDED both
under `min_year=2000` and under `max_year=2000`, refuting the claim that
an absent year always passes `min_year` (it is compared as `0`, and
`0 >= 2000` is false). -/
theorem C3_counterexample :
    minYearStage (some "2000") [demoB] = [] ∧
    maxYearStage (some "2000") [demoB] = [] :=
  ⟨rfl, rfl⟩

/-- C3 as amended: both bounds are inclusive; a record with no `year` is
compared as `0` under `min_year` (so it is retained iff the bound is at
most 0, and in particular excluded under `min_year=2000`) and as `9999`
under `max_year` (so it is retained iff the bound is at least 9999). -/
theorem C3_year_filter_amended (l : List Item) (s : String) (m : ℚ)
    (hs : s ≠ "") (hm : parseNumber s = some m) :
    (∀ d ∈ l, d.year = .undefined →
      (d ∈ minYearStage (some s) l ↔ (0 : ℚ) ≥ m)) ∧
    (∀ d ∈ l, ∀ y : ℚ, d.year = .jnum y →
      (d ∈ minYearStage (some s) l ↔ y ≥ m)) ∧
    (∀ d ∈ l, d.year = .undefined →
      (d ∈ maxYearStage (some s) l ↔ (9999 : ℚ) ≤ m)) ∧
    (∀ d ∈ l, ∀ y : ℚ, y ≠ 0 → d.year = .jnum y →
      (d ∈ maxYearStage (some s) l ↔ y ≤ m)) := by
  have hne : (s != "") = true := by simpa using hs
  refine ⟨?_, ?_, ?_, ?_⟩
  · intro d hd hy
    simp [minYearStage, hne, List.mem_filter, hd, hy, jsOr, truthy, jsGeNum, toNumber, hm]
  · intro d hd y hy
    by_cases hy0 : y = 0
    · subst hy0
      simp [minYearStage, hne, List.mem_filter, hd, hy, jsOr, truthy, jsGeNum, toNumber, hm]
    · simp [minYearStage, hne, List.mem_filter, hd, hy, jsOr, truthy, jsGeNum, toNumber, hm,
        hy0]
  · intro d hd hy
    simp [maxYearStage, hne, List.mem_filter, hd, hy, jsOr, truthy, jsLeNum, toNumber, hm]
  · intro d hd y hy0 hy
    simp [maxYearStage, hne, List.mem_filter, hd, hy, jsOr, truthy, jsLeNum, toNumber, hm,
      hy0]

/-- Witness for the amended C3 on the two demo records with
`min_year=max_year=2000`. -/
theorem C3_year_filter_amended_witness :
    (∀ d ∈ [demoA, demoB], d.year = .undefined →
      (d ∈ minYearStage (some "2000") [demoA, demoB] ↔ (0 : ℚ) ≥ 2000)) ∧
    (∀ d ∈ [demoA, demoB], ∀ y : ℚ, d.year = .jnum y →
      (d ∈ minYearStage (some "2000") [demoA, demoB] ↔ y ≥ 2000)) ∧
    (∀ d ∈ [demoA, demoB], d.year = .undefined →
      (d ∈ maxYearStage (some "2000") [demoA, demoB] ↔ (9999 : ℚ) ≤ 2000)) ∧
    (∀ d ∈ [demoA, demoB], ∀ y : ℚ, y ≠ 0 → d.year = .jnum y →
      (d ∈ maxYearStage (some "2000") [demoA, demoB] ↔ y ≤ 2000)) :=
  C3_year_filter_amended [demoA, demoB] "2000" 2000 (by decide) rfl

/-- C4: the create route crashes on a payload whose `title` is a number
(`payload.title?.trim()` throws a `TypeError` because numbers have no
`trim` method), so the request fails with a server error and no record
is stored — contradicting "create never fails". -/
theorem C4_create_throws_on_numeric_title :
    createItem { title := some (.jnum 5) } "id1" 7 = .error () ∧
    handle "k" (some "k") (fun _ => "id1") 7
        (.create { title := some (.jnum 5) }) [demoA]
      = (.serverError, [demoA]) :=
  ⟨rfl, rfl⟩

/-- A successfully created item carries the generated id. -/
theorem createItem_id (p : Payload) (idv : String) (now : ℚ) (it : Item)
    (h : createItem p idv now = .ok it) : it.id = .jstr idv := by
  rw [createItem] at h
  cases ht : titleOf p.title with
  | error e =>
      rw [ht] at h
      exact absurd h (by simp [Bind.bind, Except.bind])
  | ok t =>
      rw [ht] at h
      have h2 : Except.ok
          ({ id := .jstr idv, title := t,
             original_title := jsOrD p.original_title (.jstr ""),
             year := numOrUndef p.year,
             country := jsOrD p.country (.jstr "China"),
             genres := arrOrEmpty p.genres,
             status := jsOrD p.status (.jstr "Ongoing"),
             rating := numOr0 p.rating,
             poster_url := jsOrD p.poster_url (.jstr ""),
             banner_url := jsOrD p.banner_url (.jstr ""),
             description := jsOrD p.description (.jstr ""),
             cast := arrOrEmpty p.cast,
             tags := arrOrEmpty p.tags,
             episodes := arrOrEmpty p.episodes,
             created_at := .jnum now, updated_at := .jnum now } : Item)
          = Except.ok it := h
      injection h2 with h3
      rw [← h3]

/-- C2 counterexample: updating record `"b"` with a payload that carries
an `id` key reassigns that record's id to `"a"` and leaves the catalog
with a duplicate id, so the uniqueness invariant is NOT preserved by the
update operation. -/
theorem C2_counterexample :
    (idsOf [demoA, demoB]).Nodup ∧
    idsOf (handle "k" (some "k") (fun _ => "f1") 2
        (.update "b" { id := some (.jstr "a") }) [demoA, demoB]).2
      = [.jstr "a", .jstr "a"] ∧
    ¬ (idsOf (handle "k" (some "k") (fun _ => "f1") 2
        (.update "b" { id := some (.jstr "a") }) [demoA, demoB]).2).Nodup := by
  have hids : idsOf (handle "k" (some "k") (fun _ => "f1") 2
      (.update "b" { id := some (.jstr "a") }) [demoA, demoB]).2
      = [.jstr "a", .jstr "a"] := rfl
  refine ⟨by simp [idsOf, demoA, demoB], hids, ?_⟩
  intro h
  rw [hids] at h
  exact (List.nodup_cons.mp h).1 (List.mem_singleton.mpr rfl)

/-- The freshness side conditions under which an operation can be
expected to preserve id uniqueness: create and seed use ids that are
fresh (and, for seed, pairwise distinct), and the update payload carries
no `id` key. -/
def FreshOk (fresh : Nat → String) (st : List Item) : Req → Prop
  | .create _ => JVal.jstr (fresh 0) ∉ idsOf st
  | .seed c => (∀ i j, i < seedLen c → j < seedLen c → fresh i = fresh j → i = j) ∧
      (∀ i, i < seedLen c → JVal.jstr (fresh i) ∉ idsOf st)
  | .update _ p => p.id = none
  | _ => True

/-- C2 as amended: starting from a catalog with unique ids, every
operation preserves uniqueness PROVIDED the generated ids are fresh and
the update payload carries no `id` key (without that proviso the update
route can reassign an id, see the counterexample); an update without an
`id` key also leaves the catalog's id sequence unchanged. -/
theorem C2_id_uniqueness_amended (secret : String) (key : Option String)
    (fresh : Nat → String) (now : ℚ) (req : Req) (st : List Item)
    (hnd : (idsOf st).Nodup) (hfresh : FreshOk fresh st req) :
    (idsOf (handle secret key fresh now req st).2).Nodup ∧
    (∀ i p, req = .update i p →
      idsOf (handle secret key fresh now req st).2 = idsOf st) := by
  by_cases hko : requireKeyOk secret key
  · cases req with
    | list params => exact ⟨hnd, by intro i p h; cases h⟩
    | detail i => exact ⟨hnd, by intro i p h; cases h⟩
    | create p =>
        refine ⟨?_, by intro i p2 h; cases h⟩
        cases hc : createItem p (fresh 0) now with
        | error e => simpa [handle, hko, hc] using hnd
        | ok it =>
            have hid := createItem_id p (fresh 0) now it hc
            have : idsOf (handle secret key fresh now (.create p) st).2
                = it.id :: idsOf st := by
              simp [handle, hko, hc, idsOf]
            rw [this, hid, List.nodup_cons]
            exact ⟨by simpa using hfresh, hnd⟩
    | update i p =>
        have hpid : p.id = none := hfresh
        cases hul : updateInList i p now st with
        | none =>
            constructor
            · simpa [handle, hko, hul] using hnd
            · intro i2 p2 h
              injection h with h1 h2
              subst h1
              subst h2
              simp [handle, hko, hul, idsOf]
        | some pr =>
            obtain ⟨u, st2⟩ := pr
            have hids := updateInList_ids i p now hpid st u st2 hul
            constructor
            · have : (handle secret key fresh now (.update i p) st).2 = st2 := by
                simp [handle, hko, hul]
              rw [this, hids]
              exact hnd
            · intro i2 p2 h
              injection h with h1 h2
              subst h1
              subst h2
              have : (handle secret key fresh now (.update i p) st).2 = st2 := by
                simp [handle, hko, hul]
              rw [this, hids]
    | delete i =>
        refine ⟨?_, by intro i2 p2 h; cases h⟩
        have hsub : (idsOf ((handle secret key fresh now (.delete i) st).2)).Sublist
            (idsOf st) := by
          have : (handle secret key fresh now (.delete i) st).2
              = st.filter (fun d => !eqStr d.id i) := by
            simp [handle, hko]
          rw [this]
          exact List.Sublist.map Item.id (List.filter_sublist st)
        exact List.Nodup.sublist hsub hnd
    | seed c =>
        refine ⟨?_, by intro i2 p2 h; cases h⟩
        obtain ⟨hinj, hdisj⟩ := hfresh
        have hsplit : idsOf (handle secret key fresh now (.seed c) st).2
            = (List.range (seedLen c)).map (fun i => JVal.jstr (fresh i)) ++ idsOf st := by
          simp [handle, hko, idsOf, seedSample, Function.comp]
        rw [hsplit]
        refine List.Nodup.append ?_ hnd ?_
        · refine List.Nodup.map_on ?_ (List.nodup_range _)
          intro x hx y hy hxy
          rw [List.mem_range] at hx hy
          exact hinj x y hx hy (by simpa using hxy)
        · intro a ha hamem
          rw [List.mem_map] at ha
          obtain ⟨i, hi, rfl⟩ := ha
          rw [List.mem_range] at hi
          exact hdisj i hi hamem
  · cases req with
    | list params => exact ⟨hnd, by intro i p h; cases h⟩
    | detail i => exact ⟨hnd, by intro i p h; cases h⟩
    | create p => exact ⟨by simpa [handle, hko] using hnd, by intro i p2 h; cases h⟩
    | update i p =>
        constructor
        · simpa [handle, hko] using hnd
        · intro i2 p2 h
          simp [handle, hko]
    | delete i => exact ⟨by simpa [handle, hko] using hnd, by intro i2 p2 h; cases h⟩
    | seed c => exact ⟨by simpa [handle, hko] using hnd, by intro i2 p2 h; cases h⟩

/-- Witness for the amended C2: a delete on the two-record demo catalog
(with the trivial freshness condition for delete). -/
theorem C2_id_uniqueness_amended_witness :
    (idsOf (handle "k" (some "k") freshDemo 2 (.delete "a") [demoA, demoB]).2).Nodup ∧
    (∀ i p, Req.delete "a" = Req.update i p →
      idsOf (handle "k" (some "k") freshDemo 2 (.delete "a") [demoA, demoB]).2
        = idsOf [demoA, demoB]) :=
  C2_id_uniqueness_amended "k" (some "k") freshDemo 2 (.delete "a") [demoA, demoB]
    (by simp [idsOf, demoA, demoB]) trivial

end DramaApi
